import Mathlib

/-!
Verification development for `main.py` of XRU13/xindata: a single-file
data-chat CLI around one SQLite table.  The relational engine (sqlite3),
the CSV reader and the OpenAI client are external collaborators; they are
modelled by an abstract `Engine` structure (resp. by pre-parsed record
lists and an `agent` response function), while every function of
`main.py` itself (`_clean`, `import_csv`, `db_ready`, `run_sql_query`,
`chat`) is embedded faithfully, statement by statement.
-/

namespace XinData

/-! ## Python string primitives used by main.py -/

/-- Python whitespace characters recognised by `str.strip` / `str.lstrip`
(ASCII fragment; the claims involve only ASCII input). -/
def isPySpace (c : Char) : Bool :=
  c = ' ' || c = '\t' || c = '\n' || c = '\r' || c = '\x0b' || c = '\x0c'

/-- Python `str.strip()` on the character list: drop whitespace from both ends. -/
def stripChars (cs : List Char) : List Char :=
  ((cs.dropWhile isPySpace).reverse.dropWhile isPySpace).reverse

/-- Python `str.replace(a, b)` for a single-character pattern `a`:
every occurrence of `a` is replaced by the character list `b`
(`b = []` models replacement by the empty string). -/
def replaceChar (a : Char) (b : List Char) : List Char → List Char
  | [] => []
  | c :: cs => (if c = a then b else [c]) ++ replaceChar a b cs

/-- Python `str.lstrip()`. -/
def pyLstrip (s : String) : String :=
  ⟨s.toList.dropWhile isPySpace⟩

/-- Python `str.upper()` (ASCII fragment). -/
def pyUpper (s : String) : String :=
  ⟨s.toList.map Char.toUpper⟩

/-- Python `str.startswith(pat)` on character lists: second argument is the pattern. -/
def listStartsWith : List Char → List Char → Bool
  | _, [] => true
  | [], _ :: _ => false
  | a :: as, b :: bs => a = b && listStartsWith as bs

/-! ## Configuration constants of main.py -/

/-- The fixed target table name (`TABLE = "freelancer_earnings_bd"`). -/
def TABLE : String := "freelancer_earnings_bd"

/-- The system prompt (`PROMPT = f"Assistant for freelance DB. ..."`). -/
def PROMPT : String :=
  "Assistant for freelance DB. Use run_sql_query on table \x27freelancer_earnings_bd\x27."

/-! ## Column normalizer -/

/-- Body of `_clean` on character lists:
`col.strip().replace(" ", "_").replace("-", "_").replace(".", "")`. -/
def cleanList (cs : List Char) : List Char :=
  replaceChar '.' [] (replaceChar '-' ['_'] (replaceChar ' ' ['_'] (stripChars cs)))

/-- The column normalizer `_clean` of main.py. -/
def _clean (col : String) : String :=
  ⟨cleanList col.toList⟩

/-! ## SQLite values and the json.dumps model -/

/-- SQLite result values relevant here (all imported data is text; queries can
also produce integers and NULL.  REAL and BLOB are omitted: no claim involves
them). -/
inductive Val where
  | null
  | int (i : Int)
  | text (s : String)
deriving DecidableEq

/-- Escaping of one character inside a JSON string, as `json.dumps` does for
the characters that can occur in the claims' inputs. -/
def jsonEscapeChar (c : Char) : List Char :=
  if c = '"' then ['\\', '"']
  else if c = '\\' then ['\\', '\\']
  else if c = '\n' then ['\\', 'n']
  else if c = '\t' then ['\\', 't']
  else if c = '\r' then ['\\', 'r']
  else [c]

/-- JSON rendering of a string value. -/
def jsonStr (s : String) : String :=
  ⟨'"' :: ((s.toList.map jsonEscapeChar).flatten ++ ['"'])⟩

/-- JSON rendering of a SQLite value (`None` serializes as `null`). -/
def jsonVal : Val → String
  | Val.null => "null"
  | Val.int i => toString i
  | Val.text s => jsonStr s

/-- One row dict rendered by `json.dumps(..., indent=2)` at list depth 1:
the dict opens after two spaces of indent, entries are indented four spaces. -/
def jsonDictBlock (d : List (String × Val)) : String :=
  match d with
  | [] => "  \x7b\x7d"
  | _ =>
    "  \x7b\n" ++
      String.intercalate ",\n"
        (d.map (fun kv => "    " ++ jsonStr kv.1 ++ ": " ++ jsonVal kv.2)) ++
      "\n  \x7d"

/-- Model of `json.dumps(rows, indent=2)` for a list of row dicts.  The one
fact the claims rest on: the empty list serializes to the two-character,
truthy string `"[]"`, never to the empty string. -/
def jsonDumpRows (rows : List (List (String × Val))) : String :=
  match rows with
  | [] => "[]"
  | _ =>
    "[\n" ++ String.intercalate ",\n" (rows.map jsonDictBlock) ++ "\n]"

/-- Python `dict` update step: assigning to an existing key keeps its position
and replaces its value; a fresh key is appended. -/
def dictInsert (d : List (String × Val)) (k : String) (v : Val) : List (String × Val) :=
  if d.any (fun kv => kv.1 = k) then
    d.map (fun kv => if kv.1 = k then (k, v) else kv)
  else d ++ [(k, v)]

/-- Python `dict(pairs)` built left to right (models `dict(zip(cols, r))`). -/
def pyDict (ps : List (String × Val)) : List (String × Val) :=
  ps.foldl (fun d kv => dictInsert d kv.1 kv.2) []

/-! ## The abstract relational engine

sqlite3 is an external collaborator (the spec places "the relational
engine's SQL execution semantics" out of scope), so its behaviour is a
parameter.  A database *file* is `Option DB` (`none` = the file does not
exist); `sqlite3.connect` on a missing file creates an empty store.  Each
operation returns the store it leaves behind, also when it raises
(`Except.error` pairs the `sqlite3.Error` text with the post-rollback
store). -/

/-- Result of executing one statement on a freshly opened connection:
the store it leaves, the cursor's column names, the fetched rows, and
`total_changes` of that connection after the statement. -/
structure ExecRes (DB : Type) where
  db : DB
  cols : List String
  rows : List (List Val)
  changes : Nat
deriving DecidableEq

/-- Abstract interface of the sqlite3 collaborator. -/
structure Engine where
  DB : Type
  emptyDB : DB
  masterHasTable : DB → String → Except String Bool
  execQ : DB → String → Except (String × DB) (ExecRes DB)
  dropCreate : DB → String → List String → Except (String × DB) DB
  insertMany : DB → String → List String → List (List String) → Except (String × DB) DB

/-! ## db_ready -/

/-- The store readiness check `db_ready` of main.py.  Returns the boolean
together with the database file afterwards (`DATABASE.exists()` is checked
before connecting, so a missing file is never created).  A `sqlite3.Error`
from the catalog query is caught and yields `false`. -/
def db_ready (eng : Engine) (dbf : Option eng.DB) : Bool × Option eng.DB :=
  match dbf with
  | none => (false, none)
  | some db =>
    match eng.masterHasTable db TABLE with
    | Except.error _ => (false, some db)
    | Except.ok b => (b, some db)

/-! ## import_csv -/

/-- Outcome of a Python call: a returned value, or an exception escaping to
the caller. -/
inductive PyResult (α : Type) where
  | ok (value : α)
  | raised (exc : String)
deriving DecidableEq

/-- The dataset importer `import_csv` of main.py.  `csvFile` is the parsed
content of the source file (`none` = missing; otherwise the record list the
csv reader yields).  Mirrors the source line by line: the existence check
returns `False` before touching the store; `sqlite3.connect` then creates the
store file if absent; `next(rdr)` on a file with no records raises
`StopIteration`, which is not a `csv.Error`/`sqlite3.Error` and so escapes;
`sqlite3.Error` from the drop/create script or the batched insert is caught
and yields `False`. -/
def import_csv (eng : Engine) (csvFile : Option (List (List String)))
    (dbf : Option eng.DB) : PyResult Bool × Option eng.DB :=
  match csvFile with
  | none => (PyResult.ok false, dbf)
  | some records =>
    match records with
    | [] =>
      (PyResult.raised "StopIteration",
        some (match dbf with | none => eng.emptyDB | some d => d))
    | hdr :: rows =>
      match eng.dropCreate (match dbf with | none => eng.emptyDB | some d => d)
          TABLE (hdr.map _clean) with
      | Except.error (_, db1) => (PyResult.ok false, some db1)
      | Except.ok db1 =>
        match eng.insertMany db1 TABLE (hdr.map _clean) rows with
        | Except.error (_, db2) => (PyResult.ok false, some db2)
        | Except.ok db2 => (PyResult.ok true, some db2)

/-! ## run_sql_query -/

/-- Result of one `run_sql_query` call: the returned string, the database
file afterwards, and whether `db.execute(query)` was reached at all. -/
structure RunRes (DB : Type) where
  out : String
  db : Option DB
  executed : Bool

/-- The statement classification `query.lstrip().upper().startswith("SELECT")`. -/
def isSelect (q : String) : Bool :=
  listStartsWith (pyUpper (pyLstrip q)).toList "SELECT".toList

/-- The query executor `run_sql_query` of main.py.  Opens a fresh connection
for this one call; `db.total_changes` of that connection after the single
statement is `res.changes`.  The `none` branch inside the ready case is
unreachable (`db_ready` is `false` on a missing file) and mirrors the
sentinel. -/
def run_sql_query (eng : Engine) (dbf : Option eng.DB) (q : String) : RunRes eng.DB :=
  if (db_ready eng dbf).1 = false then
    ⟨"Database not initialised.", dbf, false⟩
  else
    match dbf with
    | none => ⟨"Database not initialised.", dbf, false⟩
    | some db =>
      match eng.execQ db q with
      | Except.error (e, db2) => ⟨"SQL error: " ++ e, some db2, true⟩
      | Except.ok res =>
        if isSelect q then
          ⟨(if jsonDumpRows ((res.rows.map (fun r => pyDict (res.cols.zip r))).take 20)
                = "" then
              "No rows."
            else
              jsonDumpRows ((res.rows.map (fun r => pyDict (res.cols.zip r))).take 20)),
            some res.db, true⟩
        else
          ⟨"OK (" ++ toString res.changes ++ " changes)", some res.db, true⟩

/-! ## The chat loop -/

/-- One tool invocation from the agent: its correlation id and the decoded
`"query"` argument (`json.loads(call["function"]["arguments"])["query"]`). -/
structure ToolCall where
  id : String
  queryArg : String

/-- One agent response message: its text content and, when the key is
present, its list of tool invocations. -/
structure AgentMsg where
  content : String
  tool_calls : Option (List ToolCall)

/-- Conversation messages as main.py appends them. -/
inductive Msg where
  | system (content : String)
  | user (content : String)
  | assistant (m : AgentMsg)
  | tool (tool_call_id : String) (name : String) (content : String)

/-- How one `chat` call ends: final answer printed, budget exhausted with a
logged warning, or chat disabled for lack of an API key. -/
inductive ChatOutcome where
  | answered (text : String)
  | budgetExceeded
  | disabled
deriving DecidableEq

/-- Observables of one `chat` call: the outcome, the database file afterwards,
how many times `run_sql_query` ran, and how many agent round trips happened. -/
structure ChatRes (DB : Type) where
  outcome : ChatOutcome
  db : Option DB
  executorCalls : Nat
  roundTrips : Nat

/-- The inner `for call in msg["tool_calls"]` loop: runs `run_sql_query` on
each invocation in order, returning the tool messages appended, the database
file afterwards, and the number of executor calls. -/
def runCalls (eng : Engine) : Option eng.DB → List ToolCall → List Msg × Option eng.DB × Nat
  | dbf, [] => ([], dbf, 0)
  | dbf, c :: rest =>
    (Msg.tool c.id "run_sql_query" (run_sql_query eng dbf c.queryArg).out ::
        (runCalls eng (run_sql_query eng dbf c.queryArg).db rest).1,
      (runCalls eng (run_sql_query eng dbf c.queryArg).db rest).2.1,
      (runCalls eng (run_sql_query eng dbf c.queryArg).db rest).2.2 + 1)

/-- Bookkeeping for one completed round trip whose turn carried tool calls. -/
def afterTools (eng : Engine) (rest : ChatRes eng.DB) (k : Nat) : ChatRes eng.DB :=
  ⟨rest.outcome, rest.db, k + rest.executorCalls, 1 + rest.roundTrips⟩

/-- The `for _ in range(5)` loop of `chat`, with the remaining iteration count
as fuel.  The external agent is a function from the transcript to its next
message; exhausting the fuel is the warning-logged budget-exceeded exit. -/
def chatLoop (eng : Engine) (agent : List Msg → AgentMsg) :
    Nat → List Msg → Option eng.DB → ChatRes eng.DB
  | 0, _, dbf => ⟨ChatOutcome.budgetExceeded, dbf, 0, 0⟩
  | n + 1, msgs, dbf =>
    match (agent msgs).tool_calls with
    | none => ⟨ChatOutcome.answered (agent msgs).content, dbf, 0, 1⟩
    | some calls =>
      afterTools eng
        (chatLoop eng agent n
          (msgs ++ [Msg.assistant (agent msgs)] ++ (runCalls eng dbf calls).1)
          (runCalls eng dbf calls).2.1)
        (runCalls eng dbf calls).2.2

/-- The tool-mediated chat loop `chat` of main.py: disabled without an API
key, otherwise seeds the transcript with the system prompt and the user
question and runs at most 5 round trips. -/
def chat (eng : Engine) (agent : List Msg → AgentMsg) (apiKey : String)
    (prompt : String) (dbf : Option eng.DB) : ChatRes eng.DB :=
  if apiKey = "" then ⟨ChatOutcome.disabled, dbf, 0, 0⟩
  else chatLoop eng agent 5 [Msg.system PROMPT, Msg.user prompt] dbf

/-! ## A concrete test engine

Used to evaluate the embedded functions on explicit inputs.  Its store is a
bare `Nat` version counter; its statements stand for concrete SQL:
`"SELECT empty"` a select with zero matching rows, `"DEL5"` a DELETE that
removes 5 rows, `"INS1"` an INSERT of one row, `"BOOM"` a syntactically
invalid statement. -/

/-- Statement semantics of the concrete test engine. -/
def demoExec (db : Nat) (q : String) : Except (String × Nat) (ExecRes Nat) :=
  if q = "SELECT empty" then Except.ok ⟨db, ["c"], [], 0⟩
  else if q = "DEL5" then Except.ok ⟨db + 1, [], [], 5⟩
  else if q = "INS1" then Except.ok ⟨db + 1, [], [], 1⟩
  else if q = "BOOM" then Except.error ("near BOOM: syntax error", db)
  else Except.ok ⟨db, [], [], 0⟩

/-- The concrete test engine; its catalog always registers the target table. -/
@[reducible] def demoEngine : Engine where
  DB := Nat
  emptyDB := 0
  masterHasTable := fun _ _ => Except.ok true
  execQ := demoExec
  dropCreate := fun db _ _ => Except.ok db
  insertMany := fun db _ _ _ => Except.ok db

/-- An agent that issues exactly one tool invocation on every turn. -/
def agentOne : List Msg → AgentMsg :=
  fun _ => ⟨"", some [⟨"call1", "INS1"⟩]⟩

/-- An agent that issues two tool invocations on every turn. -/
def agentTwo : List Msg → AgentMsg :=
  fun _ => ⟨"", some [⟨"callA", "INS1"⟩, ⟨"callB", "INS1"⟩]⟩

/-! ## Decidable character-level predicates for the normalizer claims -/

/-- The output alphabet constraint of the normalizer claims: no space, hyphen
or period. -/
def noBadChars (s : String) : Bool :=
  s.toList.all (fun c => !(c = ' ' || c = '-' || c = '.'))

/-- Inputs whose only whitespace characters are plain spaces. -/
def onlyPlainSpaces (s : String) : Bool :=
  s.toList.all (fun c => !isPySpace c || c = ' ')

/-- Strings containing no whitespace character at all. -/
def noWhitespaceStr (s : String) : Bool :=
  s.toList.all (fun c => !isPySpace c)

/-- Whether the last character of a string is whitespace. -/
def hasTrailingWS (s : String) : Bool :=
  match s.toList.getLast? with
  | some c => isPySpace c
  | none => false

/-! ## Helper lemmas about the normalizer -/

/-- Characters of a single-character replacement come from the replacement
text or are unreplaced characters of the input. -/
theorem mem_replaceChar {x a : Char} {b : List Char} :
    ∀ {cs : List Char}, x ∈ replaceChar a b cs → x ∈ b ∨ (x ∈ cs ∧ x ≠ a) := by
  intro cs
  induction cs with
  | nil => intro h; simp [replaceChar] at h
  | cons c cs ih =>
    intro h
    simp only [replaceChar, List.mem_append] at h
    rcases h with h | h
    · by_cases hca : c = a
      · subst hca
        rw [if_pos rfl] at h
        exact Or.inl h
      · rw [if_neg hca] at h
        have hxc := List.mem_singleton.mp h
        subst hxc
        exact Or.inr ⟨List.mem_cons_self _ _, hca⟩
    · rcases ih h with h1 | ⟨h1, h2⟩
      · exact Or.inl h1
      · exact Or.inr ⟨List.mem_cons_of_mem _ h1, h2⟩

/-- Membership survives `dropWhile` upward. -/
theorem mem_of_dropWhile {p : Char → Bool} :
    ∀ {cs : List Char} {x : Char}, x ∈ cs.dropWhile p → x ∈ cs := by
  intro cs
  induction cs with
  | nil => intro x h; simp at h
  | cons c cs ih =>
    intro x h
    rw [List.dropWhile_cons] at h
    by_cases hc : p c = true
    · rw [if_pos hc] at h
      exact List.mem_cons_of_mem _ (ih h)
    · rw [if_neg hc] at h
      exact h

/-- Characters of the stripped list are characters of the input. -/
theorem mem_stripChars {x : Char} {cs : List Char} (h : x ∈ stripChars cs) : x ∈ cs := by
  unfold stripChars at h
  rw [List.mem_reverse] at h
  have h1 := mem_of_dropWhile h
  rw [List.mem_reverse] at h1
  exact mem_of_dropWhile h1

/-- A list none of whose characters satisfies the predicate is unchanged by
`dropWhile`. -/
theorem dropWhile_eq_self_of_all {p : Char → Bool} {cs : List Char}
    (h : ∀ c ∈ cs, p c = false) : cs.dropWhile p = cs := by
  cases cs with
  | nil => rfl
  | cons c cs =>
    have hc := h c (List.mem_cons_self _ _)
    simp [List.dropWhile_cons, hc]

/-- Stripping a list that contains no whitespace is the identity. -/
theorem stripChars_eq_self {cs : List Char} (h : ∀ c ∈ cs, isPySpace c = false) :
    stripChars cs = cs := by
  unfold stripChars
  rw [dropWhile_eq_self_of_all h]
  rw [dropWhile_eq_self_of_all (fun c hc => h c (List.mem_reverse.mp hc))]
  exact List.reverse_reverse cs

/-- Replacement of a character that does not occur is the identity. -/
theorem replaceChar_eq_self {a : Char} {b : List Char} :
    ∀ {cs : List Char}, (∀ c ∈ cs, c ≠ a) → replaceChar a b cs = cs := by
  intro cs
  induction cs with
  | nil => intro _; rfl
  | cons c cs ih =>
    intro h
    have hca := h c (List.mem_cons_self _ _)
    simp only [replaceChar, if_neg hca, List.singleton_append]
    rw [ih (fun d hd => h d (List.mem_cons_of_mem _ hd))]

/-- No character of a normalized token is a space, hyphen or period. -/
theorem cleanList_no_bad (cs : List Char) :
    ∀ x ∈ cleanList cs, x ≠ ' ' ∧ x ≠ '-' ∧ x ≠ '.' := by
  intro x hx
  unfold cleanList at hx
  rcases mem_replaceChar hx with h | ⟨h3, hdot⟩
  · simp at h
  rcases mem_replaceChar h3 with h | ⟨h2, hdash⟩
  · have hu := List.mem_singleton.mp h
    subst hu
    exact ⟨by decide, by decide, by decide⟩
  rcases mem_replaceChar h2 with h | ⟨h1, hsp⟩
  · have hu := List.mem_singleton.mp h
    subst hu
    exact ⟨by decide, by decide, by decide⟩
  exact ⟨hsp, hdash, hdot⟩

/-- If every whitespace character of the input is a plain space, the
normalized token contains no whitespace at all. -/
theorem cleanList_no_ws {cs : List Char}
    (hcs : ∀ c ∈ cs, isPySpace c = true → c = ' ') :
    ∀ x ∈ cleanList cs, isPySpace x = false := by
  intro x hx
  unfold cleanList at hx
  rcases mem_replaceChar hx with h | ⟨h3, _⟩
  · simp at h
  rcases mem_replaceChar h3 with h | ⟨h2, _⟩
  · have hu := List.mem_singleton.mp h
    subst hu
    decide
  rcases mem_replaceChar h2 with h | ⟨h1, hsp⟩
  · have hu := List.mem_singleton.mp h
    subst hu
    decide
  have hmem : x ∈ cs := mem_stripChars h1
  cases hval : isPySpace x
  · rfl
  · exact absurd (hcs x hmem hval) hsp

/-- A list already free of whitespace, spaces, hyphens and periods is a fixed
point of the normalizer body. -/
theorem cleanList_fixed {cs : List Char}
    (hws : ∀ c ∈ cs, isPySpace c = false)
    (hbad : ∀ c ∈ cs, c ≠ ' ' ∧ c ≠ '-' ∧ c ≠ '.') :
    cleanList cs = cs := by
  unfold cleanList
  rw [stripChars_eq_self hws]
  rw [replaceChar_eq_self (fun c hc => (hbad c hc).1)]
  rw [replaceChar_eq_self (fun c hc => (hbad c hc).2.1)]
  rw [replaceChar_eq_self (fun c hc => (hbad c hc).2.2)]

/-- Unfolding of the `onlyPlainSpaces` predicate. -/
theorem onlyPlainSpaces_spec {s : String} (h : onlyPlainSpaces s = true) :
    ∀ c ∈ s.toList, isPySpace c = true → c = ' ' := by
  intro c hc hw
  unfold onlyPlainSpaces at h
  have h2 := List.all_eq_true.mp h c hc
  simp only [hw, Bool.not_true, Bool.false_or, decide_eq_true_eq] at h2
  exact h2

/-! ## Helper lemmas about the chat loop -/

/-- The inner tool loop performs exactly one executor call per invocation. -/
theorem runCalls_count (eng : Engine) :
    ∀ (dbf : Option eng.DB) (calls : List ToolCall),
      (runCalls eng dbf calls).2.2 = calls.length := by
  intro dbf calls
  induction calls generalizing dbf with
  | nil => rfl
  | cons c rest ih => simp [runCalls, ih]

/-- The loop makes at most as many round trips as it has fuel. -/
theorem chatLoop_roundTrips_le (eng : Engine) (agent : List Msg → AgentMsg) :
    ∀ (n : Nat) (msgs : List Msg) (dbf : Option eng.DB),
      (chatLoop eng agent n msgs dbf).roundTrips ≤ n := by
  intro n
  induction n with
  | zero => intro msgs dbf; simp [chatLoop]
  | succ n ih =>
    intro msgs dbf
    cases htc : (agent msgs).tool_calls with
    | none => simp [chatLoop, htc]
    | some calls =>
      simp only [chatLoop, htc, afterTools]
      have hrec := ih (msgs ++ [Msg.assistant (agent msgs)] ++ (runCalls eng dbf calls).1)
        ((runCalls eng dbf calls).2.1)
      omega

/-- Against an agent that requests tools on every turn, the loop burns all its
fuel and ends in the budget-exceeded state. -/
theorem chatLoop_always_tools (eng : Engine) (agent : List Msg → AgentMsg)
    (h : ∀ ms, (agent ms).tool_calls ≠ none) :
    ∀ (n : Nat) (msgs : List Msg) (dbf : Option eng.DB),
      (chatLoop eng agent n msgs dbf).outcome = ChatOutcome.budgetExceeded ∧
        (chatLoop eng agent n msgs dbf).roundTrips = n := by
  intro n
  induction n with
  | zero => intro msgs dbf; exact ⟨rfl, rfl⟩
  | succ n ih =>
    intro msgs dbf
    cases htc : (agent msgs).tool_calls with
    | none => exact absurd htc (h msgs)
    | some calls =>
      simp only [chatLoop, htc, afterTools]
      refine ⟨(ih _ _).1, ?_⟩
      rw [(ih _ _).2]
      omega

/-- With at most one invocation per turn, executor calls are bounded by the
fuel. -/
theorem chatLoop_execCalls_le (eng : Engine) (agent : List Msg → AgentMsg)
    (h1 : ∀ ms calls, (agent ms).tool_calls = some calls → calls.length ≤ 1) :
    ∀ (n : Nat) (msgs : List Msg) (dbf : Option eng.DB),
      (chatLoop eng agent n msgs dbf).executorCalls ≤ n := by
  intro n
  induction n with
  | zero => intro msgs dbf; simp [chatLoop]
  | succ n ih =>
    intro msgs dbf
    cases htc : (agent msgs).tool_calls with
    | none => simp [chatLoop, htc]
    | some calls =>
      simp only [chatLoop, htc, afterTools]
      have hlen := h1 msgs calls htc
      have hcount := runCalls_count eng dbf calls
      have hrec := ih (msgs ++ [Msg.assistant (agent msgs)] ++ (runCalls eng dbf calls).1)
        ((runCalls eng dbf calls).2.1)
      omega

/-! ## Claim theorems -/

/-- C1 (code bug): on a ready store, a select-type statement with zero
matching rows makes `run_sql_query` return the serialization `"[]"` of the
empty list, not the fixed `"No rows."` message: `json.dumps([], indent=2)`
is the truthy string `"[]"`, so the `or "No rows."` fallback of main.py line
89 is unreachable.  `"SELECT empty"` is the test engine's select with an
empty result set. -/
theorem c1_empty_select_returns_brackets :
    (run_sql_query demoEngine (some 0) "SELECT empty").out = "[]" ∧
      (run_sql_query demoEngine (some 0) "SELECT empty").out ≠ "No rows." :=
  ⟨by decide, by decide⟩

/-- C2 (counterexample to the claim as stated): each `run_sql_query` call
opens a fresh connection, so the reported `total_changes` is the change count
of that one statement.  A DELETE touching five rows (`"DEL5"`) followed by a
single-row INSERT (`"INS1"`) reports 5 and then 1 — not monotonically
non-decreasing. -/
theorem c2_counterexample :
    (run_sql_query demoEngine (some 0) "DEL5").out = "OK (5 changes)" ∧
      (run_sql_query demoEngine ((run_sql_query demoEngine (some 0) "DEL5").db) "INS1").out
        = "OK (1 changes)" ∧
      ¬ (5 : Nat) ≤ 1 :=
  ⟨by decide, by decide, by decide⟩

/-- C2 (amended): the confirmation string of a successful non-select
statement reports the number of changes made by this call's own freshly
opened connection — i.e. this statement's change count — not a cumulative
count over the process lifetime. -/
theorem c2_per_call_changes (eng : Engine) (db : eng.DB) (q : String)
    (res : ExecRes eng.DB)
    (hready : (db_ready eng (some db)).1 = true)
    (hsel : isSelect q = false)
    (hx : eng.execQ db q = Except.ok res) :
    run_sql_query eng (some db) q =
      ⟨"OK (" ++ toString res.changes ++ " changes)", some res.db, true⟩ := by
  simp [run_sql_query, hready, hx, hsel]

/-- Witness for c2_per_call_changes at a concrete single-row INSERT. -/
theorem c2_per_call_changes_witness :
    (run_sql_query demoEngine (some 3) "INS1").out = "OK (1 changes)" := by
  rw [c2_per_call_changes demoEngine 3 "INS1" ⟨4, [], [], 1⟩ rfl rfl rfl]
  decide

/-- C3 (counterexample to the claim as stated): an agent issuing two tool
invocations on every turn drives ten executor calls in one invocation, yet
still ends budget-exceeded after five round trips. -/
theorem c3_counterexample :
    (chat demoEngine agentTwo "k" "q" (some 0)).executorCalls = 10 ∧
      ¬ (chat demoEngine agentTwo "k" "q" (some 0)).executorCalls ≤ 5 ∧
      (chat demoEngine agentTwo "k" "q" (some 0)).outcome = ChatOutcome.budgetExceeded :=
  ⟨by decide, by decide, by decide⟩

/-- C3 (amended): every chat invocation performs at most 5 round trips; if
the agent requests tools on every turn the loop ends at round 5 in the
budget-exceeded state (the warning-logging exit) with no final answer, and
the executor-call total is bounded by 5 exactly when each turn carries at
most one invocation (one executor call per invocation). -/
theorem c3_bounded_loop (eng : Engine) (agent : List Msg → AgentMsg)
    (key prompt : String) (dbf : Option eng.DB) :
    (chat eng agent key prompt dbf).roundTrips ≤ 5 ∧
      (key ≠ "" → (∀ ms, (agent ms).tool_calls ≠ none) →
        (chat eng agent key prompt dbf).outcome = ChatOutcome.budgetExceeded ∧
          (chat eng agent key prompt dbf).roundTrips = 5 ∧
          ((∀ ms calls, (agent ms).tool_calls = some calls → calls.length ≤ 1) →
            (chat eng agent key prompt dbf).executorCalls ≤ 5)) := by
  by_cases hk : key = ""
  · subst hk
    refine ⟨by simp [chat], fun hk2 => absurd rfl hk2⟩
  · constructor
    · simp only [chat, if_neg hk]
      exact chatLoop_roundTrips_le eng agent 5 _ _
    · intro _ htools
      simp only [chat, if_neg hk]
      refine ⟨(chatLoop_always_tools eng agent htools 5 _ _).1,
        (chatLoop_always_tools eng agent htools 5 _ _).2, ?_⟩
      intro h1
      exact chatLoop_execCalls_le eng agent h1 5 _ _

/-- Witness for c3_bounded_loop: an agent issuing exactly one invocation per
turn ends budget-exceeded with at most 5 executor calls. -/
theorem c3_bounded_loop_witness :
    (chat demoEngine agentOne "k" "q" (some 0)).outcome = ChatOutcome.budgetExceeded ∧
      (chat demoEngine agentOne "k" "q" (some 0)).executorCalls ≤ 5 := by
  have h := (c3_bounded_loop demoEngine agentOne "k" "q" (some 0)).2
    (by decide) (fun ms => by simp [agentOne])
  refine ⟨h.1, h.2.2 ?_⟩
  intro ms calls hc
  simp only [agentOne] at hc
  cases hc
  decide

/-- C4 (code bug): a source file that exists but holds no records at all
makes `import_csv` raise `StopIteration` out of `next(rdr)` — `StopIteration`
is neither a `csv.Error` nor a `sqlite3.Error`, so it escapes to the caller
instead of yielding the contractual failure boolean. -/
theorem c4_empty_csv_raises :
    import_csv demoEngine (some []) (some 0) = (PyResult.raised "StopIteration", some 0) := by
  decide

/-- C5: a missing source file makes `import_csv` return the failure boolean
before any store access, leaving the database file and the target table
exactly as they were. -/
theorem c5_missing_csv_no_mutation (eng : Engine)
    (csvFile : Option (List (List String))) (dbf : Option eng.DB)
    (h : csvFile = none) :
    import_csv eng csvFile dbf = (PyResult.ok false, dbf) := by
  subst h
  rfl

/-- Witness for c5_missing_csv_no_mutation at a concrete store state. -/
theorem c5_missing_csv_no_mutation_witness :
    import_csv demoEngine none (some 7) = (PyResult.ok false, some 7) :=
  c5_missing_csv_no_mutation demoEngine none (some 7) rfl

/-- C6 (counterexample to the claim as stated): the token `"a\t."` contains a
period, yet its normalization `"a\t"` ends in whitespace — removing the
period exposes the interior tab at the end, after stripping has already
happened. -/
theorem c6_counterexample :
    ('.' ∈ "a\t.".toList) ∧ _clean "a\t." = "a\t" ∧
      hasTrailingWS (_clean "a\t.") = true :=
  ⟨by decide, by decide, by decide⟩

/-- C6 (amended): the normalizer applies trim, space-to-underscore,
hyphen-to-underscore and period-removal in that order, so its output never
contains a space, hyphen or period; and whenever the input's whitespace
characters are all plain spaces, the output contains no whitespace at all —
in particular none leading or trailing. -/
theorem c6_normalizer_chars (s : String) :
    noBadChars (_clean s) = true ∧
      (onlyPlainSpaces s = true → noWhitespaceStr (_clean s) = true) := by
  constructor
  · unfold noBadChars
    rw [List.all_eq_true]
    intro c hc
    have h := cleanList_no_bad s.toList c hc
    simp [h.1, h.2.1, h.2.2]
  · intro hps
    unfold noWhitespaceStr
    rw [List.all_eq_true]
    intro c hc
    have h := cleanList_no_ws (onlyPlainSpaces_spec hps) c hc
    simp [h]

/-- Witness for c6_normalizer_chars at the concrete header token
`" a b-c.d "`. -/
theorem c6_normalizer_chars_witness :
    onlyPlainSpaces " a b-c.d " = true ∧
      noBadChars (_clean " a b-c.d ") = true ∧
      noWhitespaceStr (_clean " a b-c.d ") = true :=
  ⟨by decide, (c6_normalizer_chars " a b-c.d ").1,
    (c6_normalizer_chars " a b-c.d ").2 (by decide)⟩

/-- C7: a store-level error during execution is caught and turned into a
string with the distinct prefix `"SQL error: "`, returned to the caller like
any other tool output — it is never raised, so a failing query cannot crash
the chat loop. -/
theorem c7_error_caught (eng : Engine) (db db2 : eng.DB) (q e : String)
    (hready : (db_ready eng (some db)).1 = true)
    (hx : eng.execQ db q = Except.error (e, db2)) :
    run_sql_query eng (some db) q = ⟨"SQL error: " ++ e, some db2, true⟩ := by
  simp [run_sql_query, hready, hx]

/-- Witness for c7_error_caught at the test engine's invalid statement. -/
theorem c7_error_caught_witness :
    (run_sql_query demoEngine (some 0) "BOOM").out
      = "SQL error: near BOOM: syntax error" := by
  rw [c7_error_caught demoEngine 0 0 "BOOM" "near BOOM: syntax error" rfl rfl]
  decide

/-- C8: `db_ready` returns true exactly when the store file exists and the
target table is registered in the catalog; it leaves the database file
untouched (in particular it never creates it), and a catalog access error
yields false instead of propagating. -/
theorem c8_db_ready_spec (eng : Engine) (dbf : Option eng.DB) :
    (db_ready eng dbf).2 = dbf ∧
      ((db_ready eng dbf).1 = true ↔
        ∃ db, dbf = some db ∧ eng.masterHasTable db TABLE = Except.ok true) := by
  cases dbf with
  | none => simp [db_ready]
  | some db =>
    cases hm : eng.masterHasTable db TABLE with
    | error e => simp [db_ready, hm]
    | ok b => cases b <;> simp [db_ready, hm]

/-- C9: when the store is not ready, `run_sql_query` returns the fixed
sentinel text, does not execute the statement, and leaves the database file
unchanged. -/
theorem c9_unready_sentinel (eng : Engine) (dbf : Option eng.DB) (q : String)
    (h : (db_ready eng dbf).1 = false) :
    run_sql_query eng dbf q = ⟨"Database not initialised.", dbf, false⟩ := by
  simp [run_sql_query, h]

/-- Witness for c9_unready_sentinel on a missing store file. -/
theorem c9_unready_sentinel_witness :
    (run_sql_query demoEngine none "SELECT 1").out = "Database not initialised." ∧
      (run_sql_query demoEngine none "SELECT 1").executed = false := by
  rw [c9_unready_sentinel demoEngine none "SELECT 1" rfl]
  exact ⟨rfl, rfl⟩

/-- C10 (counterexample to the claim as stated): the normalizer is not
idempotent — `_clean "a\t."` is `"a\t"`, whose re-normalization strips the
now-trailing tab down to `"a"`. -/
theorem c10_counterexample :
    _clean (_clean "a\t.") ≠ _clean "a\t." := by
  decide

/-- C10 (amended): on every input whose whitespace characters are all plain
spaces, the normalizer is idempotent. -/
theorem c10_idempotent_amended (s : String)
    (h : onlyPlainSpaces s = true) : _clean (_clean s) = _clean s := by
  have key : cleanList (cleanList s.toList) = cleanList s.toList :=
    cleanList_fixed (cleanList_no_ws (onlyPlainSpaces_spec h))
      (cleanList_no_bad s.toList)
  calc _clean (_clean s) = ⟨cleanList (cleanList s.toList)⟩ := rfl
    _ = ⟨cleanList s.toList⟩ := by rw [key]
    _ = _clean s := rfl

/-- Witness for c10_idempotent_amended at a concrete header token. -/
theorem c10_idempotent_amended_witness :
    onlyPlainSpaces "a b.c" = true ∧ _clean (_clean "a b.c") = _clean "a b.c" :=
  ⟨by decide, c10_idempotent_amended "a b.c" (by decide)⟩

end XinData
